import Mathlib

/-!
Shallow embedding of the sorcerer repository (orchestrator `src/src/sorcerer.rs`,
worker `src/apprentice/src/server.rs`, command engine `src/apprentice/src/commands.rs`)
and proofs of the specification claims about it.

External effects (OS filesystem, subprocesses, network, external parsing libraries)
are modelled by a `World` record carrying the model filesystem, the executor's
scratch memory, and oracle functions standing for the outcomes of the external
calls; each `execute_*` function mirrors the control flow of its Rust source.
-/

/-- Mirrors `TaskStatus` in commands.rs. -/
inductive TaskStatus
  | pending
  | inProgress
  | completed
  | failed
deriving DecidableEq, Repr

/-- Mirrors `DataFormat` in commands.rs. -/
inductive DataFormat
  | json
  | yaml
  | toml
  | xml
deriving DecidableEq, Repr

/-- Mirrors `StatusLevel` in commands.rs. -/
inductive StatusLevel
  | info
  | warning
  | error
  | success
deriving DecidableEq, Repr

/-- Mirrors `Section` in commands.rs (renamed: `Section` is a Lean keyword). -/
structure ReportSection where
  title : String
  content : String
deriving DecidableEq, Repr

/-- Mirrors `FileInfo` in commands.rs. -/
structure FileInfo where
  path : String
  is_dir : Bool
  size : Nat
deriving DecidableEq, Repr

/-- Mirrors `SearchMatch` in commands.rs. -/
structure SearchMatch where
  file : String
  line : Nat
  content : String
deriving DecidableEq, Repr

/-- Opaque stand-in for `serde_json::Value`: the repository never inspects a
parsed value, it only formats it with the Debug formatter, so the model carries
just that rendering. -/
structure JVal where
  debugRepr : String
deriving DecidableEq, Repr

/-- Mirrors `Command` in commands.rs: one constructor per Rust variant. -/
inductive Command
  | read (path : String)
  | write (path : String) (content : String)
  | edit (path : String) (pattern : String) (replacement : String)
  | delete (path : String)
  | exec (command : String) (args : List String)
  | list (path : String) (pattern : Option String)
  | search (pattern : String) (path : Option String) (file_type : Option String)
  | think (reasoning : String)
  | plan (tasks : List String)
  | updatePlan (plan_id : String) (task_id : String) (status : TaskStatus)
  | remember (key : String) (value : String)
  | recall (key : String)
  | webFetch (url : String) (extract : Option String)
  | parse (content : String) (format : DataFormat)
  | status (message : String) (level : StatusLevel)
  | report (title : String) (sections : List ReportSection)
deriving DecidableEq, Repr

/-- Mirrors `CommandBatch` in commands.rs. -/
structure CommandBatch where
  commands : List Command
deriving DecidableEq, Repr

/-- Mirrors `CommandResult` in commands.rs. -/
inductive CommandResult
  | success (msg : String)
  | error (msg : String)
  | fileList (files : List FileInfo)
  | searchResults (found : List SearchMatch)
  | value (val : JVal)
  | none
deriving DecidableEq, Repr

/-- Outcome of spawning a subprocess (`tokio::process::Command::output`). -/
inductive ExecOut
  | ran (status_success : Bool) (stdout : String) (stderr : String)
  | spawnErr (e : String)
deriving DecidableEq, Repr

/-- Outcome of `reqwest::get` followed by `.text()`. -/
inductive FetchOut
  | ok (text : String)
  | bodyErr (e : String)
  | connErr (e : String)
deriving DecidableEq, Repr

/-- One entry returned by `read_dir`: its path string, its `file_name()` (None
for paths without one), and its metadata (None when the metadata call fails,
in which case commands.rs silently skips the entry). -/
structure DirEntry where
  path : String
  fname : Option String
  meta : Option (Bool × Nat)
deriving DecidableEq, Repr

/-- The world the command engine acts on: the model filesystem (path to file
content), the executor scratch memory (commands.rs `CommandExecutor.memory`),
a uuid source, and oracles fixing the outcomes of external calls. -/
structure World where
  fs : List (String × String)
  memory : List (String × String)
  uuidCtr : Nat
  uuidO : Nat → String
  writeErrO : String → Option String
  execO : String → List String → ExecOut
  listO : String → Except String (List DirEntry)
  searchO : String → Option String → Option String → Except String (List SearchMatch)
  fetchO : String → FetchOut
  parseJsonO : String → Except String JVal
  parseYamlO : String → Except String JVal
  parseTomlO : String → Except String String

/-- Lookup in an association list keyed by strings. -/
def assocFind (l : List (String × String)) (k : String) : Option String :=
  (l.find? (fun e => e.1 == k)).map (fun e => e.2)

/-- Insert/overwrite in an association list keyed by strings. -/
def assocInsert (l : List (String × String)) (k v : String) : List (String × String) :=
  (k, v) :: l.filter (fun e => e.1 != k)

/-- Remove a key from an association list keyed by strings. -/
def assocErase (l : List (String × String)) (k : String) : List (String × String) :=
  l.filter (fun e => e.1 != k)

/-- The OS error text for a missing file, as Rust io::Error displays it. -/
def osNotFound : String := "No such file or directory (os error 2)"

/-- Mirrors `execute_read`: read the file, error with the OS message if absent. -/
def execute_read (w : World) (path : String) : CommandResult × World :=
  match assocFind w.fs path with
  | some content => (.success content, w)
  | Option.none => (.error ("Failed to read " ++ path ++ ": " ++ osNotFound), w)

/-- Mirrors `execute_write`: the `writeErrO` oracle decides whether the OS
write call fails; on success the file is created/overwritten. -/
def execute_write (w : World) (path content : String) : CommandResult × World :=
  match w.writeErrO path with
  | some e => (.error ("Failed to write to " ++ path ++ ": " ++ e), w)
  | Option.none =>
      (.success ("Successfully wrote to " ++ path),
       { w with fs := assocInsert w.fs path content })

/-- Mirrors `execute_edit`: read, replace every occurrence, write back. -/
def execute_edit (w : World) (path pattern replacement : String) : CommandResult × World :=
  match assocFind w.fs path with
  | some content =>
      let new_content := content.replace pattern replacement
      match w.writeErrO path with
      | some e => (.error ("Failed to write to " ++ path ++ ": " ++ e), w)
      | Option.none =>
          (.success ("Successfully edited " ++ path),
           { w with fs := assocInsert w.fs path new_content })
  | Option.none => (.error ("Failed to read " ++ path ++ ": " ++ osNotFound), w)

/-- Mirrors `execute_delete`: remove the file, error with the OS message if absent. -/
def execute_delete (w : World) (path : String) : CommandResult × World :=
  match assocFind w.fs path with
  | some _ => (.success ("Successfully deleted " ++ path), { w with fs := assocErase w.fs path })
  | Option.none => (.error ("Failed to delete " ++ path ++ ": " ++ osNotFound), w)

/-- Mirrors `execute_exec`: run the subprocess via the oracle; a zero exit
status yields stdout as success, otherwise stderr as error. -/
def execute_exec (w : World) (command : String) (args : List String) : CommandResult × World :=
  match w.execO command args with
  | .ran true stdout _ => (.success stdout, w)
  | .ran false _ stderr => (.error ("Command failed: " ++ stderr), w)
  | .spawnErr e => (.error ("Failed to execute command: " ++ e), w)

/-- Substring test used by the listing pattern filter (Rust `str::contains`). -/
def strContains (s pat : String) : Bool :=
  pat.isEmpty || (s.splitOn pat).length > 1

/-- Mirrors the entry loop of `execute_list`: keep entries matching the
pattern (in the path string or the file name) whose metadata call succeeds. -/
def listEntries (pattern : Option String) (es : List DirEntry) : List FileInfo :=
  (es.filter (fun e =>
      match pattern with
      | some pat => strContains e.path pat || ((e.fname.map (fun n => strContains n pat)).getD false)
      | Option.none => true)).filterMap
    (fun e => e.meta.map (fun m => { path := e.path, is_dir := m.1, size := m.2 }))

/-- Mirrors `execute_list`: list the directory via the oracle and filter. -/
def execute_list (w : World) (path : String) (pattern : Option String) : CommandResult × World :=
  match w.listO path with
  | .ok es => (.fileList (listEntries pattern es), w)
  | .error e => (.error ("Failed to list directory " ++ path ++ ": " ++ e), w)

/-- Mirrors `execute_search`: run ripgrep via the oracle; a spawn failure is an
error, otherwise the parsed matches are returned (even when empty). -/
def execute_search (w : World) (pattern : String) (path file_type : Option String) :
    CommandResult × World :=
  match w.searchO pattern path file_type with
  | .ok ms => (.searchResults ms, w)
  | .error e => (.error ("Search failed: " ++ e), w)

/-- Mirrors `execute_think`: log only, no result. -/
def execute_think (w : World) (_reasoning : String) : CommandResult × World :=
  (.none, w)

/-- Mirrors `execute_plan`: mint a fresh uuid as the plan id. -/
def execute_plan (w : World) (_tasks : List String) : CommandResult × World :=
  (.success (w.uuidO w.uuidCtr), { w with uuidCtr := w.uuidCtr + 1 })

/-- Mirrors `execute_update_plan`: log only, no result. -/
def execute_update_plan (w : World) (_plan_id _task_id : String) (_status : TaskStatus) :
    CommandResult × World :=
  (.none, w)

/-- Mirrors `execute_remember`: insert into the executor memory. -/
def execute_remember (w : World) (key value : String) : CommandResult × World :=
  (.success ("Remembered: " ++ key), { w with memory := assocInsert w.memory key value })

/-- Mirrors `execute_recall`: look up the executor memory. -/
def execute_recall (w : World) (key : String) : CommandResult × World :=
  match assocFind w.memory key with
  | some value => (.success value, w)
  | Option.none => (.error ("No memory found for key: " ++ key), w)

/-- Mirrors `execute_web_fetch`: fetch via the oracle; with an `extract`
argument the code reports the extraction text instead of the body. -/
def execute_web_fetch (w : World) (url : String) (extract : Option String) :
    CommandResult × World :=
  match w.fetchO url with
  | .ok text =>
      match extract with
      | some extraction => (.success ("Fetched from " ++ url ++ ": " ++ extraction), w)
      | Option.none => (.success text, w)
  | .bodyErr e => (.error ("Failed to read response: " ++ e), w)
  | .connErr e => (.error ("Failed to fetch " ++ url ++ ": " ++ e), w)

/-- Mirrors `execute_parse`: JSON and YAML produce a parsed value, TOML its
debug rendering, XML is unimplemented. -/
def execute_parse (w : World) (content : String) (format : DataFormat) :
    CommandResult × World :=
  match format with
  | .json =>
      match w.parseJsonO content with
      | .ok v => (.value v, w)
      | .error e => (.error ("Failed to parse JSON: " ++ e), w)
  | .yaml =>
      match w.parseYamlO content with
      | .ok v => (.value v, w)
      | .error e => (.error ("Failed to parse YAML: " ++ e), w)
  | .toml =>
      match w.parseTomlO content with
      | .ok s => (.success s, w)
      | .error e => (.error ("Failed to parse TOML: " ++ e), w)
  | .xml => (.error "XML parsing not implemented", w)

/-- Mirrors `execute_status`: log at the given level, no result. -/
def execute_status (w : World) (_message : String) (_level : StatusLevel) :
    CommandResult × World :=
  (.none, w)

/-- Mirrors `execute_report`: build the markdown report string. -/
def execute_report (w : World) (title : String) (sections : List ReportSection) :
    CommandResult × World :=
  let body := sections.foldl
    (fun acc s => acc ++ "## " ++ s.title ++ "\n\n" ++ s.content ++ "\n\n")
    ("# " ++ title ++ "\n\n")
  (.success body, w)

/-- Mirrors `CommandExecutor::execute`: dispatch one command. -/
def execute (w : World) : Command → CommandResult × World
  | .read path => execute_read w path
  | .write path content => execute_write w path content
  | .edit path pattern replacement => execute_edit w path pattern replacement
  | .delete path => execute_delete w path
  | .exec command args => execute_exec w command args
  | .list path pattern => execute_list w path pattern
  | .search pattern path file_type => execute_search w pattern path file_type
  | .think reasoning => execute_think w reasoning
  | .plan tasks => execute_plan w tasks
  | .updatePlan plan_id task_id status => execute_update_plan w plan_id task_id status
  | .remember key value => execute_remember w key value
  | .recall key => execute_recall w key
  | .webFetch url extract => execute_web_fetch w url extract
  | .parse content format => execute_parse w content format
  | .status message level => execute_status w message level
  | .report title sections => execute_report w title sections

/-- The command loop of `handle_agent_response` (server.rs): execute every
command of the batch strictly in order, threading the world, collecting one
result per command; a per-command error never stops the loop. -/
def executeBatch (w : World) : List Command → List CommandResult × World
  | [] => ([], w)
  | c :: cs =>
      let p := execute w c
      let q := executeBatch p.2 cs
      (p.1 :: q.1, q.2)

/-- The per-result rendering of `handle_agent_response` (server.rs): the lines
pushed into `results` for one `CommandResult`. -/
def renderResult : CommandResult → List String
  | .success msg => ["✓ " ++ msg]
  | .error msg => ["✗ " ++ msg]
  | .fileList files =>
      ("Found " ++ toString files.length ++ " files") ::
        ((files.take 10).map (fun f =>
            "  " ++ (if f.is_dir then "📁" else "📄") ++ " " ++ f.path) ++
          (if files.length > 10 then
            ["  ... and " ++ toString (files.length - 10) ++ " more"]
          else []))
  | .searchResults ms =>
      ("Found " ++ toString ms.length ++ " matches") ::
        ((ms.take 5).map (fun m =>
            "  " ++ m.file ++ ":" ++ toString m.line ++ " - " ++ m.content) ++
          (if ms.length > 5 then
            ["  ... and " ++ toString (ms.length - 5) ++ " more"]
          else []))
  | .value v => ["Parsed: " ++ v.debugRepr]
  | .none => []

/-- The final report of `handle_agent_response`: all pushed lines joined by
newlines (`results.join("\n")`). -/
def renderReport (rs : List CommandResult) : String :=
  String.intercalate "\n" (rs.flatMap renderResult)

/-- Mirrors `handle_agent_response` (server.rs): try to parse the response as
a command batch; on success execute it and return the rendered report, on
parse failure return the raw response and touch nothing. `parse` stands for
`parse_commands` (a serde_json library call, external to the repository). -/
def handle_agent_response (parse : String → Option CommandBatch) (w : World)
    (response : String) : String × World :=
  match parse response with
  | some batch =>
      let p := executeBatch w batch.commands
      (renderReport p.1, p.2)
  | Option.none => (response, w)

/-- True for the Write and Delete command variants. -/
def isWriteOrDelete : Command → Bool
  | .write _ _ => true
  | .delete _ => true
  | _ => false

/-- True for a `CommandResult.success`. -/
def isSuccessResult : CommandResult → Bool
  | .success _ => true
  | _ => false

/-- True for a `CommandResult.error`. -/
def isErrorResult : CommandResult → Bool
  | .error _ => true
  | _ => false

/-- Mirrors `ApprenticeState` in server.rs. -/
structure ApprenticeState where
  name : String
  state : String
  spells_cast : Int
  last_spell_time : Option String
  chat_history : List String
  agent_mode : Bool
  system_prompt : Option String
deriving DecidableEq, Repr

/-- Mirrors `SpellRequest` of the RPC protocol. -/
structure SpellRequest where
  spell_id : String
  incantation : String
deriving DecidableEq, Repr

/-- Mirrors `SpellResponse` of the RPC protocol. -/
structure SpellResponse where
  spell_id : String
  result : String
  success : Bool
  error : String
deriving DecidableEq, Repr

/-- Mirrors `StatusResponse` of the RPC protocol. -/
structure StatusResponse where
  apprentice_name : String
  state : String
  last_spell_time : String
deriving DecidableEq, Repr

/-- The chat-history trim of `cast_spell` (server.rs): when the log exceeds
100 entries, `drain(0..len - 100)` drops the oldest surplus entries. -/
def trimHistory (h : List String) : List String :=
  if h.length > 100 then h.drop (h.length - 100) else h

/-- The first mutation of `cast_spell`: the worker enters the in-flight
state (the literal string is "casting"; the spec names this state "busy"). -/
def castSpellStart (st : ApprenticeState) : ApprenticeState :=
  { st with state := "casting" }

/-- The rest of `cast_spell` after the state was set to "casting": `llm` is
the outcome of the Claude client call (an external HTTP call), `now` the
current RFC3339 timestamp, `parse` the serde_json batch parser. On success
the final response is the command report when agent mode is on (otherwise the
raw response), the raw request/response pair is appended to the chat history,
the history is trimmed, the counters are updated and the state returns to
"idle". On failure the state becomes "error" and nothing else changes. -/
def castSpellFinish (parse : String → Option CommandBatch)
    (llm : Except String String) (now : String)
    (st : ApprenticeState) (w : World) (req : SpellRequest) :
    SpellResponse × ApprenticeState × World :=
  match llm with
  | .ok response =>
      let p :=
        if st.agent_mode then handle_agent_response parse w response
        else (response, w)
      let hist := trimHistory (st.chat_history ++
        ["Sorcerer: " ++ req.incantation, st.name ++ ": " ++ response])
      ({ spell_id := req.spell_id, result := p.1, success := true, error := "" },
       { st with
          state := "idle",
          spells_cast := st.spells_cast + 1,
          last_spell_time := some now,
          chat_history := hist },
       p.2)
  | .error e =>
      ({ spell_id := req.spell_id, result := "", success := false, error := e },
       { st with state := "error" },
       w)

/-- Mirrors `cast_spell` (server.rs) end to end. -/
def cast_spell (parse : String → Option CommandBatch)
    (llm : Except String String) (now : String)
    (st : ApprenticeState) (w : World) (req : SpellRequest) :
    SpellResponse × ApprenticeState × World :=
  castSpellFinish parse llm now (castSpellStart st) w req

/-- Mirrors `get_status` (server.rs): a pure read of the worker state. -/
def get_status (st : ApprenticeState) : StatusResponse :=
  { apprentice_name := st.name,
    state := st.state,
    last_spell_time := st.last_spell_time.getD "" }

/-- The i32 wire value reinterpreted as a 64-bit usize (`lines as usize` in
server.rs on a 64-bit platform): twos-complement conversion. -/
def i32ToUsize (n : Int) : Nat := (n % (2 ^ 64)).toNat

/-- Mirrors `get_chat_history` (server.rs): 0 means the whole log, otherwise
the last `lines` entries with the start index clamped at 0. `lines_wire` is
the i32 field of the request. -/
def get_chat_history (st : ApprenticeState) (lines_wire : Int) : List String :=
  let lines := i32ToUsize lines_wire
  if lines = 0 then st.chat_history
  else
    let start := if st.chat_history.length > lines then st.chat_history.length - lines else 0
    st.chat_history.drop start

/-- Mirrors the `Apprentice` record in sorcerer.rs (the Rust field names
`_name` and `_port` carry a leading underscore only to silence warnings).
`client` is `some ()` when an RPC client is connected. -/
structure ApprenticeRec where
  name : String
  container_id : String
  port : Nat
  client : Option Unit
deriving DecidableEq, Repr

/-- Registry lookup (Rust HashMap get). -/
def regFind (reg : List (String × ApprenticeRec)) (k : String) : Option ApprenticeRec :=
  (reg.find? (fun p => p.1 == k)).map (fun p => p.2)

/-- Registry insert/replace (Rust HashMap insert). -/
def regInsert (reg : List (String × ApprenticeRec)) (k : String) (v : ApprenticeRec) :
    List (String × ApprenticeRec) :=
  (k, v) :: reg.filter (fun p => p.1 != k)

/-- Registry removal (Rust HashMap remove). -/
def regErase (reg : List (String × ApprenticeRec)) (k : String) :
    List (String × ApprenticeRec) :=
  reg.filter (fun p => p.1 != k)

/-- Mirrors `banish_apprentice` (sorcerer.rs). The record is removed from the
registry up front; the graceful RPC banish outcome is ignored entirely, a
container-stop failure is only logged, and only the final force-remove
outcome decides the result. The three `Except` arguments are the outcomes of
those external calls. -/
def banish_apprentice (reg : List (String × ApprenticeRec)) (name : String)
    (_banishRpcO : Except String Unit) (_stopO : Except String Unit)
    (removeO : Except String Unit) :
    Except String Unit × List (String × ApprenticeRec) :=
  match regFind reg name with
  | Option.none => (.error ("Apprentice " ++ name ++ " not found"), reg)
  | some _a =>
      let reg2 := regErase reg name
      match removeO with
      | .ok _ => (.ok (), reg2)
      | .error e => (.error e, reg2)

/-- The u16 modulus. -/
def U16MOD : Nat := 65536

/-- The inspect chain of `discover_apprentices`: the inspect call can fail,
the info can lack a config, the config can lack an env list. -/
inductive InspectOutcome
  | failed
  | noConfig
  | noEnv
  | env (vars : List String)
deriving DecidableEq, Repr

/-- One container as reported by the runtime during discovery: its name list,
id, state string, the outcome of inspecting it, and whether the RPC connect
attempt (made only for running containers) would succeed. -/
structure DiscContainer where
  names : List String
  id : Option String
  state : Option String
  inspect : InspectOutcome
  connectOk : Bool
deriving DecidableEq, Repr

/-- Rust `str::starts_with`, at the character level. -/
def strStartsWith (s pre : String) : Bool := pre.data.isPrefixOf s.data

/-- Rust `str::strip_prefix` once the prefix is known present: drop its
characters. -/
def strDrop (s : String) (n : Nat) : String := String.mk (s.data.drop n)

/-- Rust `str::parse::<u16>` on a decimal string (modulo the rarely used
leading plus sign, which the repository never produces). -/
def parseU16 (s : String) : Option Nat :=
  match s.toNat? with
  | some n => if n < U16MOD then some n else Option.none
  | Option.none => Option.none

/-- The env scan of `discover_apprentices`: find `GRPC_PORT=`, strip it,
parse a u16, default to 50051. -/
def portFromEnvVars (vars : List String) : Nat :=
  match vars.find? (fun e => strStartsWith e "GRPC_PORT=") with
  | some e => (parseU16 (strDrop e 10)).getD 50051
  | Option.none => 50051

/-- The full port recovery of `discover_apprentices`: every failure along the
inspect chain falls back to 50051. -/
def recoverPort (c : DiscContainer) : Nat :=
  match c.inspect with
  | .env vars => portFromEnvVars vars
  | _ => 50051

/-- The body of the name loop in `discover_apprentices`: a name with the
`/apprentice-` prefix is stripped and registered unconditionally; `next_port`
is advanced past the recovered port; the RPC client is present only when the
container is running and the connect attempt succeeds. -/
def discoverName (c : DiscContainer) (acc : List (String × ApprenticeRec) × Nat)
    (nm : String) : List (String × ApprenticeRec) × Nat :=
  if strStartsWith nm "/apprentice-" then
    let aname := strDrop nm 12
    let port := recoverPort c
    let np := if acc.2 ≤ port then (port + 1) % U16MOD else acc.2
    let client : Option Unit :=
      if c.state == some "running" && c.connectOk then some () else Option.none
    (regInsert acc.1 aname
      { name := aname, container_id := c.id.getD "", port := port, client := client },
     np)
  else acc

/-- The container loop of `discover_apprentices`. -/
def discoverStep (acc : List (String × ApprenticeRec) × Nat) (c : DiscContainer) :
    List (String × ApprenticeRec) × Nat :=
  c.names.foldl (discoverName c) acc

/-- Mirrors `discover_apprentices` (sorcerer.rs), run at construction on an
empty registry with the configured starting port. -/
def discover_apprentices (start_port : Nat) (cs : List DiscContainer) :
    List (String × ApprenticeRec) × Nat :=
  cs.foldl discoverStep ([], start_port)

/-- The port allocation step of `summon_apprentice` (sorcerer.rs): return the
current `next_port`, then increment it (u16 arithmetic, hence mod 2^16). -/
def allocate (p : Nat) : Nat × Nat := (p, (p + 1) % U16MOD)

/-- The ports returned by `n` consecutive `allocate()` calls starting from
counter value `p`. -/
def allocSeq : Nat → Nat → List Nat
  | _, 0 => []
  | p, n + 1 => (allocate p).1 :: allocSeq (allocate p).2 n

/-- Every command of a batch is executed: exactly one result per command. -/
lemma executeBatch_length (w : World) (cmds : List Command) :
    ((executeBatch w cmds).1).length = cmds.length := by
  induction cmds generalizing w with
  | nil => rfl
  | cons c cs ih => simp [executeBatch, ih]

/-- Batch execution is strictly sequential: a batch split anywhere executes
its first part, then its second part from the resulting world, results
appended in order — in particular no per-command failure stops the tail. -/
lemma executeBatch_append (w : World) (cs ds : List Command) :
    executeBatch w (cs ++ ds) =
      ((executeBatch w cs).1 ++ (executeBatch (executeBatch w cs).2 ds).1,
       (executeBatch (executeBatch w cs).2 ds).2) := by
  induction cs generalizing w with
  | nil => simp [executeBatch]
  | cons c cs ih => simp [executeBatch, ih]

/-- A Write or Delete command always yields a Success or an Error result. -/
lemma writeOrDelete_result (w : World) (c : Command) (h : isWriteOrDelete c = true) :
    isSuccessResult (execute w c).1 = true ∨ isErrorResult (execute w c).1 = true := by
  cases c
  case write path content =>
    unfold execute execute_write
    rcases hE : w.writeErrO path with _ | e <;>
      simp [hE, isSuccessResult, isErrorResult]
  case delete path =>
    unfold execute execute_delete
    rcases hE : assocFind w.fs path with _ | v <;>
      simp [hE, isSuccessResult, isErrorResult]
  all_goals simp [isWriteOrDelete] at h

/-- A world for concrete evaluations: empty filesystem, OS writes succeed. -/
def exWorld : World :=
  { fs := []
    memory := []
    uuidCtr := 0
    uuidO := fun _ => "uuid"
    writeErrO := fun _ => Option.none
    execO := fun _ _ => .spawnErr "unused"
    listO := fun _ => .error "unused"
    searchO := fun _ _ _ => .error "unused"
    fetchO := fun _ => .connErr "unused"
    parseJsonO := fun _ => .error "unused"
    parseYamlO := fun _ => .error "unused"
    parseTomlO := fun _ => .error "unused" }

/-- The spec's example batch: write, delete of a missing path, write. -/
def exBatch : List Command :=
  [.write "/tmp/a.txt" "a", .delete "/missing", .write "/tmp/b.txt" "b"]

/-- Claim C1: on a parsed batch the engine executes all commands strictly in
order (one result per command, execution of a suffix continuing from the
world left by the prefix, never stopped by a per-command failure), a
succeeding command renders as a ✓ line, a failing one as a ✗ line, the
report is the per-command renderings joined by newlines, and on the example
batch [Write, Delete(bad), Write] all three execute giving ✓ ✗ ✓. -/
theorem C1_batch_order_and_report :
    (∀ w cmds, ((executeBatch w cmds).1).length = cmds.length)
    ∧ (∀ w cs ds, executeBatch w (cs ++ ds) =
        ((executeBatch w cs).1 ++ (executeBatch (executeBatch w cs).2 ds).1,
         (executeBatch (executeBatch w cs).2 ds).2))
    ∧ (∀ m, renderResult (.success m) = ["✓ " ++ m])
    ∧ (∀ m, renderResult (.error m) = ["✗ " ++ m])
    ∧ (∀ rs, renderReport rs = String.intercalate "\n" (rs.flatMap renderResult))
    ∧ (∀ w c, isWriteOrDelete c = true →
        isSuccessResult (execute w c).1 = true ∨ isErrorResult (execute w c).1 = true)
    ∧ renderReport (executeBatch exWorld exBatch).1 =
        "✓ Successfully wrote to /tmp/a.txt\n✗ Failed to delete /missing: No such file or directory (os error 2)\n✓ Successfully wrote to /tmp/b.txt" := by
  refine ⟨executeBatch_length, executeBatch_append, fun m => rfl, fun m => rfl,
    fun rs => rfl, writeOrDelete_result, ?_⟩
  rfl

/-- Witness for C1: the hypothesis-bearing conjunct applied to the failing
delete of the example batch. -/
theorem C1_batch_order_and_report_witness :
    isWriteOrDelete (.delete "/missing") = true
    ∧ (isSuccessResult (execute exWorld (.delete "/missing")).1 = true
       ∨ isErrorResult (execute exWorld (.delete "/missing")).1 = true) :=
  ⟨by rfl, C1_batch_order_and_report.2.2.2.2.2.1 exWorld (.delete "/missing") (by rfl)⟩

/-- Claim C2: in autonomous mode, an LLM response that does not parse as a
command batch is returned verbatim with success = true, nothing is executed
(the world is untouched), and the parse failure is not surfaced as an error. -/
theorem C2_parse_failure_soft_fallback (parse : String → Option CommandBatch)
    (now : String) (st : ApprenticeState) (w : World) (req : SpellRequest)
    (response : String)
    (hmode : st.agent_mode = true) (hparse : parse response = Option.none) :
    cast_spell parse (.ok response) now st w req =
      ({ spell_id := req.spell_id, result := response, success := true, error := "" },
       { st with
          state := "idle",
          spells_cast := st.spells_cast + 1,
          last_spell_time := some now,
          chat_history := trimHistory (st.chat_history ++
            ["Sorcerer: " ++ req.incantation, st.name ++ ": " ++ response]) },
       w) := by
  unfold cast_spell castSpellFinish castSpellStart handle_agent_response
  simp [hmode, hparse]

/-- Claim C5: when the LLM client call fails, the worker moves to the error
state, the call returns success = false with the error message and an empty
result, and neither the chat log, the counters, nor the world change. -/
theorem C5_llm_failure_no_mutation (parse : String → Option CommandBatch)
    (e now : String) (st : ApprenticeState) (w : World) (req : SpellRequest) :
    cast_spell parse (.error e) now st w req =
      ({ spell_id := req.spell_id, result := "", success := false, error := e },
       { st with state := "error" },
       w) := rfl

/-- Claim C6: in autonomous mode with a parsing response, the rendered
command report is returned as the result, yet the chat log records the raw
LLM response; the invocation counter and timestamp are updated and the state
returns to idle. -/
theorem C6_report_returned_raw_logged (parse : String → Option CommandBatch)
    (now : String) (st : ApprenticeState) (w : World) (req : SpellRequest)
    (response : String) (batch : CommandBatch)
    (hmode : st.agent_mode = true) (hparse : parse response = some batch) :
    cast_spell parse (.ok response) now st w req =
      ({ spell_id := req.spell_id,
         result := renderReport (executeBatch w batch.commands).1,
         success := true, error := "" },
       { st with
          state := "idle",
          spells_cast := st.spells_cast + 1,
          last_spell_time := some now,
          chat_history := trimHistory (st.chat_history ++
            ["Sorcerer: " ++ req.incantation, st.name ++ ": " ++ response]) },
       (executeBatch w batch.commands).2) := by
  unfold cast_spell castSpellFinish castSpellStart handle_agent_response
  simp [hmode, hparse]

/-- Claim C7: the lifecycle state is "casting" (the spec's busy) the moment
an invocation starts and is what GetStatus reports while in flight; the
invocation ends in "idle" on success and "error" on failure, from any
starting state — so "error" is not terminal and the next success returns the
worker to "idle", and the state only ever takes these three values. -/
theorem C7_lifecycle_states (parse : String → Option CommandBatch)
    (llm : Except String String) (now : String)
    (st : ApprenticeState) (w : World) (req : SpellRequest) :
    (castSpellStart st).state = "casting"
    ∧ (get_status (castSpellStart st)).state = "casting"
    ∧ ((cast_spell parse llm now st w req).2.1.state =
        match llm with
        | .ok _ => "idle"
        | .error _ => "error")
    ∧ ((cast_spell parse llm now st w req).2.1.state = "idle"
       ∨ (cast_spell parse llm now st w req).2.1.state = "error") := by
  refine ⟨rfl, rfl, ?_, ?_⟩ <;>
    cases llm <;> simp [cast_spell, castSpellFinish, castSpellStart, get_status]

/-- The trim always leaves at most 100 entries; exactly min(len, 100). -/
lemma trimHistory_length (h : List String) : (trimHistory h).length = min h.length 100 := by
  unfold trimHistory
  by_cases hl : h.length > 100
  · simp only [hl, if_true, List.length_drop]
    omega
  · simp only [hl, if_false]
    omega

/-- The chat history after a successful invocation, definitionally. -/
lemma cast_spell_ok_chat (parse : String → Option CommandBatch)
    (r now : String) (st : ApprenticeState) (w : World) (req : SpellRequest) :
    (cast_spell parse (.ok r) now st w req).2.1.chat_history =
      trimHistory (st.chat_history ++
        ["Sorcerer: " ++ req.incantation, st.name ++ ": " ++ r]) := rfl

/-- N consecutive successful invocations of the worker, threading state and
world; `reqs`, `resps` and `times` give the n-th request, LLM response and
timestamp. -/
def invokeIter (parse : String → Option CommandBatch) (reqs resps times : Nat → String)
    (st0 : ApprenticeState) (w0 : World) : Nat → ApprenticeState × World
  | 0 => (st0, w0)
  | n + 1 =>
      let p := invokeIter parse reqs resps times st0 w0 n
      (cast_spell parse (.ok (resps n)) (times n) p.1 p.2
        { spell_id := "", incantation := reqs n }).2

/-- Claim C3: the chat log never exceeds 100 entries; starting from an empty
log, after N successful invocations its length is exactly min(2N, 100); and
an over-cap log of whole turns is trimmed by dropping exactly the oldest
pair, never splitting a turn. -/
theorem C3_chat_log_invariant :
    (∀ parse llm now st w req, st.chat_history.length ≤ 100 →
      ((cast_spell parse llm now st w req).2.1.chat_history).length ≤ 100)
    ∧ (∀ parse reqs resps times st0 w0, st0.chat_history = [] → ∀ n,
        ((invokeIter parse reqs resps times st0 w0 n).1.chat_history).length =
          min (2 * n) 100)
    ∧ (∀ (h : List String) (a b : String), h.length ≤ 100 → 2 ∣ h.length →
        trimHistory (h ++ [a, b]) =
          if h.length ≤ 98 then h ++ [a, b] else h.drop 2 ++ [a, b]) := by
  refine ⟨?_, ?_, ?_⟩
  · intro parse llm now st w req hlen
    cases llm with
    | ok r =>
        rw [cast_spell_ok_chat, trimHistory_length]
        omega
    | error e =>
        exact hlen
  · intro parse reqs resps times st0 w0 h0 n
    induction n with
    | zero => simp [invokeIter, h0]
    | succ m ih =>
        show ((cast_spell parse (.ok (resps m)) (times m)
          (invokeIter parse reqs resps times st0 w0 m).1
          (invokeIter parse reqs resps times st0 w0 m).2
          { spell_id := "", incantation := reqs m }).2.1.chat_history).length = _
        rw [cast_spell_ok_chat, trimHistory_length, List.length_append]
        simp only [List.length_cons, List.length_nil]
        rw [ih]
        omega
  · intro h a b hle hev
    unfold trimHistory
    by_cases h98 : h.length ≤ 98
    · rw [if_neg (by simp only [List.length_append, List.length_cons, List.length_nil]; omega),
        if_pos h98]
    · have h100 : h.length = 100 := by omega
      rw [if_pos (by simp only [List.length_append, List.length_cons, List.length_nil]; omega),
        if_neg h98]
      have hd : (h ++ [a, b]).length - 100 = 2 := by
        simp only [List.length_append, List.length_cons, List.length_nil]
        omega
      rw [hd, List.drop_append_of_le_length (by omega)]

/-- A parse function that never recognises a batch, for concrete runs. -/
def parseNever : String → Option CommandBatch := fun _ => Option.none

/-- A concrete idle worker with an empty chat log. -/
def stEmpty : ApprenticeState :=
  { name := "app", state := "idle", spells_cast := 0, last_spell_time := Option.none,
    chat_history := [], agent_mode := false, system_prompt := Option.none }

/-- Witness for C3: after one successful invocation on an empty log the
length is min(2, 100) = 2. -/
theorem C3_chat_log_invariant_witness :
    ((invokeIter parseNever (fun _ => "r") (fun _ => "s") (fun _ => "t")
        stEmpty exWorld 1).1.chat_history).length = min (2 * 1) 100 :=
  C3_chat_log_invariant.2.1 parseNever (fun _ => "r") (fun _ => "s") (fun _ => "t")
    stEmpty exWorld rfl 1

/-- Claim C10: a negative i32 line count, reinterpreted as a 64-bit usize,
exceeds any possible log length (the log is capped at 100), so GetHistory
returns the whole log without error. -/
theorem C10_negative_lines_full_history (st : ApprenticeState) (n : Int)
    (hneg : n < 0) (hlow : -(2 ^ 31) ≤ n) (hlen : st.chat_history.length ≤ 100) :
    get_chat_history st n = st.chat_history := by
  simp only [get_chat_history, i32ToUsize]
  have hpow : ((2 : Int) ^ 64) = 18446744073709551616 := by norm_num
  have hpow31 : ((2 : Int) ^ 31) = 2147483648 := by norm_num
  rw [hpow] at *
  rw [hpow31] at hlow
  have hbig : 100 < (n % 18446744073709551616).toNat ∧
      (n % 18446744073709551616).toNat ≠ 0 := by omega
  rw [if_neg hbig.2, if_neg (by omega), List.drop_zero]

/-- Witness for C10: a two-entry log with requested count -1 is returned whole. -/
theorem C10_negative_lines_full_history_witness :
    get_chat_history { stEmpty with chat_history := ["x", "y"] } (-1) = ["x", "y"] :=
  C10_negative_lines_full_history { stEmpty with chat_history := ["x", "y"] } (-1)
    (by decide) (by decide) (by decide)

/-- A concrete autonomous-mode worker. -/
def stAgent : ApprenticeState := { stEmpty with agent_mode := true }

/-- Witness for C2: a prose response in autonomous mode is returned verbatim
with success and an untouched world. -/
theorem C2_parse_failure_soft_fallback_witness :
    cast_spell parseNever (.ok "just prose") "2026-01-01" stAgent exWorld
        { spell_id := "s1", incantation := "hi" } =
      ({ spell_id := "s1", result := "just prose", success := true, error := "" },
       { stAgent with
          state := "idle",
          spells_cast := stAgent.spells_cast + 1,
          last_spell_time := some "2026-01-01",
          chat_history := trimHistory (stAgent.chat_history ++
            ["Sorcerer: " ++ "hi", stAgent.name ++ ": " ++ "just prose"]) },
       exWorld) :=
  C2_parse_failure_soft_fallback parseNever "2026-01-01" stAgent exWorld
    { spell_id := "s1", incantation := "hi" } "just prose" rfl rfl

/-- A parse function recognising every response as the example batch. -/
def parseExample : String → Option CommandBatch := fun _ => some { commands := exBatch }

/-- Witness for C6: with a parsing response the result is the rendered report
while the chat log stores the raw response. -/
theorem C6_report_returned_raw_logged_witness :
    cast_spell parseExample (.ok "raw json") "2026-01-01" stAgent exWorld
        { spell_id := "s2", incantation := "do it" } =
      ({ spell_id := "s2",
         result := renderReport (executeBatch exWorld exBatch).1,
         success := true, error := "" },
       { stAgent with
          state := "idle",
          spells_cast := stAgent.spells_cast + 1,
          last_spell_time := some "2026-01-01",
          chat_history := trimHistory (stAgent.chat_history ++
            ["Sorcerer: " ++ "do it", stAgent.name ++ ": " ++ "raw json"]) },
       (executeBatch exWorld exBatch).2) :=
  C6_report_returned_raw_logged parseExample "2026-01-01" stAgent exWorld
    { spell_id := "s2", incantation := "do it" } "raw json" { commands := exBatch } rfl rfl

/-- A find over entries whose key was filtered away yields nothing. -/
lemma find?_filter_none (l : List (String × ApprenticeRec)) (k : String) :
    (l.filter (fun q => q.1 != k)).find? (fun p => p.1 == k) = Option.none := by
  induction l with
  | nil => rfl
  | cons p l ih =>
      by_cases hp : p.1 = k
      · simp [List.filter_cons, hp, ih]
      · simp [List.filter_cons, hp, List.find?_cons, ih]

/-- Erasing a key removes it from lookup. -/
lemma regFind_regErase (reg : List (String × ApprenticeRec)) (k : String) :
    regFind (regErase reg k) k = Option.none := by
  unfold regFind regErase
  rw [find?_filter_none]
  rfl

/-- Claim C4: banishing an unregistered name fails with not-found and leaves
the registry unchanged; banishing a registered name removes its record no
matter how the RPC banish, container stop and container remove calls end,
and the operation's own outcome equals the force-remove outcome alone. -/
theorem C4_banish_always_deletes_record :
    (∀ reg name t s r, regFind reg name = Option.none →
        banish_apprentice reg name t s r =
          (.error ("Apprentice " ++ name ++ " not found"), reg))
    ∧ (∀ reg name t s r a, regFind reg name = some a →
        regFind (banish_apprentice reg name t s r).2 name = Option.none)
    ∧ (∀ reg name t s r a, regFind reg name = some a →
        (banish_apprentice reg name t s r).1 = r) := by
  refine ⟨?_, ?_, ?_⟩
  · intro reg name t s r h
    unfold banish_apprentice
    rw [h]
  · intro reg name t s r a h
    unfold banish_apprentice
    rw [h]
    cases r <;> simp [regFind_regErase]
  · intro reg name t s r a h
    unfold banish_apprentice
    rw [h]
    cases r <;> rfl

/-- A concrete one-worker registry. -/
def regOne : List (String × ApprenticeRec) :=
  [("bob", { name := "bob", container_id := "cid", port := 50100, client := some () })]

/-- Witness for C4: the record disappears even when the stop call fails, and
the not-found branch leaves the registry alone. -/
theorem C4_banish_always_deletes_record_witness :
    regFind (banish_apprentice regOne "bob" (.ok ()) (.error "stop failed") (.ok ())).2 "bob" =
        Option.none
    ∧ banish_apprentice regOne "alice" (.ok ()) (.ok ()) (.ok ()) =
        (.error ("Apprentice " ++ "alice" ++ " not found"), regOne) :=
  ⟨C4_banish_always_deletes_record.2.1 regOne "bob" (.ok ()) (.error "stop failed") (.ok ())
      { name := "bob", container_id := "cid", port := 50100, client := some () } rfl,
   C4_banish_always_deletes_record.1 regOne "alice" (.ok ()) (.ok ()) (.ok ()) rfl⟩

/-- Without wraparound, the allocator returns consecutive values. -/
lemma allocSeq_no_wrap (p n : Nat) (h : p + n ≤ U16MOD) :
    allocSeq p n = (List.range n).map (fun i => p + i) := by
  induction n generalizing p with
  | zero => rfl
  | succ m ih =>
      simp only [allocSeq, allocate]
      rcases Nat.lt_or_ge (p + 1) U16MOD with hlt | hge
      · rw [Nat.mod_eq_of_lt hlt, ih (p + 1) (by omega), List.range_succ_eq_map]
        simp only [List.map_cons, List.map_map, Nat.add_zero]
        refine congrArg (fun l => p :: l) ?_
        refine List.map_congr_left ?_
        intro i _
        simp only [Function.comp_apply]
        omega
      · have hm : m = 0 := by
          have : U16MOD = 65536 := rfl
          omega
        subst hm
        simp [allocSeq, List.range_succ]

/-- Claim C9 (counterexample): at counter value 65535 two allocations return
[65535, 0] — u16 increment wraps, so the returned ports are not strictly
increasing as the claim states for every sequence. -/
theorem C9_alloc_wraparound_counterexample :
    allocSeq 65535 2 = [65535, 0] ∧ ¬ (allocSeq 65535 2).Pairwise (· < ·) := by
  constructor
  · rfl
  · decide

/-- Claim C9 (amended): as long as the u16 counter does not wrap (at most
2^16 - p allocations from counter value p), the returned ports are strictly
increasing and pairwise distinct. -/
theorem C9_alloc_strictly_increasing (p n : Nat) (h : p + n ≤ U16MOD) :
    (allocSeq p n).Pairwise (· < ·) ∧ (allocSeq p n).Nodup := by
  rw [allocSeq_no_wrap p n h]
  have hp : ((List.range n).map (fun i => p + i)).Pairwise (· < ·) := by
    rw [List.pairwise_map]
    exact (List.pairwise_lt_range n).imp (fun hab => by omega)
  exact ⟨hp, hp.imp (fun hab => Nat.ne_of_lt hab)⟩

/-- Witness for C9: three allocations from the default starting port. -/
theorem C9_alloc_strictly_increasing_witness :
    (allocSeq 50100 3).Pairwise (· < ·) ∧ (allocSeq 50100 3).Nodup :=
  C9_alloc_strictly_increasing 50100 3 (by decide)

/-- A find for a different key is unaffected by filtering key `k` away. -/
lemma find?_filter_ne (l : List (String × ApprenticeRec)) (k k2 : String) (h : k2 ≠ k) :
    (l.filter (fun q => q.1 != k)).find? (fun p => p.1 == k2) =
      l.find? (fun p => p.1 == k2) := by
  induction l with
  | nil => rfl
  | cons p l ih =>
      by_cases hp : p.1 = k
      · simp [List.filter_cons, hp, List.find?_cons, Ne.symm h, ih]
      · by_cases hq : p.1 = k2
        · simp [List.filter_cons, hp, List.find?_cons, hq, h]
        · simp [List.filter_cons, hp, List.find?_cons, hq, ih]

/-- Inserting a key makes it found with the inserted record. -/
lemma regFind_regInsert_self (reg : List (String × ApprenticeRec)) (k : String)
    (v : ApprenticeRec) : regFind (regInsert reg k v) k = some v := by
  simp [regFind, regInsert, List.find?_cons]

/-- Inserting one key does not change lookups of other keys. -/
lemma regFind_regInsert_ne (reg : List (String × ApprenticeRec)) (k : String)
    (v : ApprenticeRec) (k2 : String) (h : k2 ≠ k) :
    regFind (regInsert reg k v) k2 = regFind reg k2 := by
  unfold regFind regInsert
  rw [List.find?_cons, find?_filter_ne reg k k2 h]
  have hbeq : (k == k2) = false := beq_eq_false_iff_ne.mpr (Ne.symm h)
  rw [hbeq]

/-- Processing one discovery name never removes an existing registry entry. -/
lemma discoverName_preserves (c : DiscContainer) (acc : List (String × ApprenticeRec) × Nat)
    (nm k : String) (h : (regFind acc.1 k).isSome = true) :
    (regFind (discoverName c acc nm).1 k).isSome = true := by
  unfold discoverName
  by_cases hs : strStartsWith nm "/apprentice-"
  · simp only [hs, if_true]
    by_cases hk : k = strDrop nm 12
    · subst hk
      rw [regFind_regInsert_self]
      rfl
    · rw [regFind_regInsert_ne _ _ _ _ hk]
      exact h
  · simp only [Bool.not_eq_true] at hs
    simp only [hs, Bool.false_eq_true, if_false]
    exact h

/-- The name loop preserves registry entries. -/
lemma foldNames_preserves (c : DiscContainer) (nms : List String) :
    ∀ acc (k : String), (regFind acc.1 k).isSome = true →
    (regFind ((nms.foldl (discoverName c) acc)).1 k).isSome = true := by
  induction nms with
  | nil => intro acc k h; exact h
  | cons x xs ih =>
      intro acc k h
      simp only [List.foldl_cons]
      exact ih _ k (discoverName_preserves c acc x k h)

/-- The container loop preserves registry entries. -/
lemma foldSteps_preserves (cs : List DiscContainer) :
    ∀ acc (k : String), (regFind acc.1 k).isSome = true →
    (regFind ((cs.foldl discoverStep acc)).1 k).isSome = true := by
  induction cs with
  | nil => intro acc k h; exact h
  | cons x xs ih =>
      intro acc k h
      simp only [List.foldl_cons]
      exact ih _ k (foldNames_preserves x x.names acc k h)

/-- A prefixed name is registered by its own discovery step. -/
lemma discoverName_registers_self (c : DiscContainer)
    (acc : List (String × ApprenticeRec) × Nat) (nm : String)
    (hs : strStartsWith nm "/apprentice-" = true) :
    (regFind (discoverName c acc nm).1 (strDrop nm 12)).isSome = true := by
  unfold discoverName
  simp only [hs, if_true]
  rw [regFind_regInsert_self]
  rfl

/-- Every prefixed name of the container list ends up registered. -/
lemma foldNames_registers (c : DiscContainer) (nms : List String) :
    ∀ acc (nm : String), nm ∈ nms → strStartsWith nm "/apprentice-" = true →
    (regFind ((nms.foldl (discoverName c) acc)).1 (strDrop nm 12)).isSome = true := by
  induction nms with
  | nil => intro acc nm hmem _; cases hmem
  | cons x xs ih =>
      intro acc nm hmem hs
      simp only [List.foldl_cons]
      rcases List.mem_cons.mp hmem with heq | hmem2
      · subst heq
        exact foldNames_preserves c xs _ _ (discoverName_registers_self c acc nm hs)
      · exact ih _ nm hmem2 hs

/-- Every prefixed name of every listed container ends up registered. -/
lemma foldSteps_registers (cs : List DiscContainer) :
    ∀ acc (c : DiscContainer) (nm : String), c ∈ cs → nm ∈ c.names →
    strStartsWith nm "/apprentice-" = true →
    (regFind ((cs.foldl discoverStep acc)).1 (strDrop nm 12)).isSome = true := by
  induction cs with
  | nil => intro acc c nm hc _ _; cases hc
  | cons x xs ih =>
      intro acc c nm hc hmem hs
      simp only [List.foldl_cons]
      rcases List.mem_cons.mp hc with heq | hc2
      · subst heq
        exact foldSteps_preserves xs _ _ (foldNames_registers c c.names acc nm hmem hs)
      · exact ih _ c nm hc2 hmem hs

/-- A concrete stopped worker container seen by discovery. -/
def stoppedC : DiscContainer :=
  { names := ["/apprentice-bob"], id := some "cid", state := some "exited",
    inspect := .failed, connectOk := false }

/-- Claim C8 (counterexample): discovery registers a container found in a
stopped ("exited") state — with `client = None` — contradicting the claim
that the registry holds records only for running containers. -/
theorem C8_stopped_container_registered :
    stoppedC.state ≠ some "running"
    ∧ regFind (discover_apprentices 50100 [stoppedC]).1 "bob" =
        some { name := "bob", container_id := "cid", port := 50051,
               client := Option.none } := by
  exact ⟨by decide, by decide⟩

/-- Claim C8 (amended): discovery registers every prefix-named container
regardless of its reported state; the record's RPC client is present exactly
when the container was reported running and the connect attempt succeeded —
in particular a running container whose connect fails is registered with
`client = None` rather than aborting discovery. -/
theorem C8_discovery_registration :
    (∀ p0 (cs : List DiscContainer) c nm, c ∈ cs → nm ∈ c.names →
        strStartsWith nm "/apprentice-" = true →
        (regFind (discover_apprentices p0 cs).1 (strDrop nm 12)).isSome = true)
    ∧ (∀ p0 (c : DiscContainer) nm, c.names = [nm] →
        strStartsWith nm "/apprentice-" = true →
        regFind (discover_apprentices p0 [c]).1 (strDrop nm 12) =
          some { name := strDrop nm 12, container_id := c.id.getD "",
                 port := recoverPort c,
                 client := if c.state == some "running" && c.connectOk
                           then some () else Option.none }) := by
  constructor
  · intro p0 cs c nm hc hmem hs
    unfold discover_apprentices
    exact foldSteps_registers cs _ c nm hc hmem hs
  · intro p0 c nm hn hs
    unfold discover_apprentices discoverStep
    simp only [List.foldl_cons, List.foldl_nil, hn]
    unfold discoverName
    simp only [hs, if_true]
    rw [regFind_regInsert_self]

/-- A concrete running-but-unreachable worker container. -/
def unreachableC : DiscContainer :=
  { names := ["/apprentice-eve"], id := some "cid2", state := some "running",
    inspect := .noEnv, connectOk := false }

/-- Witness for C8: the amended theorem applied to a running container whose
RPC connect fails — registered with no client. -/
theorem C8_discovery_registration_witness :
    (regFind (discover_apprentices 50100 [unreachableC]).1
        (strDrop "/apprentice-eve" 12)).isSome = true
    ∧ regFind (discover_apprentices 50100 [unreachableC]).1 (strDrop "/apprentice-eve" 12) =
        some { name := strDrop "/apprentice-eve" 12, container_id := "cid2", port := 50051,
               client := if unreachableC.state == some "running" && unreachableC.connectOk
                         then some () else Option.none } :=
  ⟨C8_discovery_registration.1 50100 [unreachableC] unreachableC "/apprentice-eve"
      (by simp [unreachableC]) (by simp [unreachableC]) (by decide),
   C8_discovery_registration.2 50100 unreachableC "/apprentice-eve" rfl (by decide)⟩
